import Mathlib

/-!
Shallow embedding of the mesh-geometry reconstruction core of the
starcraft-ghost-port repository, together with theorems settling the
frozen claims about it.

Sources embedded here:
- scripts/nod_to_gltf.py : binary read helpers, parse_nod, extract_mesh
  (structured decode path);
- scripts/build_model_stubs.py : in_expanded_bbox, candidate_count_hint,
  parse_vertex_cloud (heuristic vertex scanner), remap_triangles_to_compact.

Modelling conventions:
- a byte buffer is a List Nat (each entry one byte); out-of-range reads
  use getD with default 0, which is only exercised where the Python code
  itself guarantees in-bounds access;
- IEEE-754 single-precision values are decoded exactly into the F32 type
  (nan, signed infinity, or an exact rational); subsequent arithmetic is
  exact rational arithmetic, which agrees with the Python double-precision
  arithmetic on every comparison used in the theorems below;
- math.sqrt has no exact rational counterpart, so the normal-rescaling
  step of extract_mesh is parametrised by a function sqrtA; theorems that
  depend on properties of the real square root take them as hypotheses
  about sqrtA on the relevant arguments.
-/

namespace GhostPort

/-! ## Exact model of IEEE-754 single-precision decoding -/

inductive F32 where
  | nan : F32
  | inf : Bool → F32
  | fin : ℚ → F32
deriving DecidableEq

def F32.isFiniteB : F32 → Bool
  | .fin _ => true
  | _ => false

def F32.q : F32 → ℚ
  | .fin v => v
  | _ => 0

/-- Decode a 32-bit pattern as an IEEE-754 single: sign bit, 8 exponent
bits, 23 mantissa bits; exponent 255 encodes nan and the infinities. -/
def bitsToF32 (b : Nat) : F32 :=
  let sign : Nat := b / 2 ^ 31 % 2
  let e : Nat := b / 2 ^ 23 % 2 ^ 8
  let m : Nat := b % 2 ^ 23
  if e = 255 then
    if m = 0 then .inf (sign = 1) else .nan
  else
    let mag : ℚ :=
      if e = 0 then (m : ℚ) / 2 ^ 149
      else ((2 ^ 23 + m : Nat) : ℚ) * 2 ^ e / 2 ^ 150
    .fin (if sign = 1 then -mag else mag)

/-! ## Binary read helpers (nod_to_gltf.py lines 57-67, little-endian) -/

def byteAt (data : List Nat) (i : Nat) : Nat := data.getD i 0

def read_u8 (data : List Nat) (off : Nat) : Nat := byteAt data off

def read_u16 (data : List Nat) (off : Nat) : Nat :=
  byteAt data off + 256 * byteAt data (off + 1)

def read_u32 (data : List Nat) (off : Nat) : Nat :=
  byteAt data off + 256 * (byteAt data (off + 1) +
    256 * (byteAt data (off + 2) + 256 * byteAt data (off + 3)))

def read_f32 (data : List Nat) (off : Nat) : F32 :=
  bitsToF32 (read_u32 data off)

/-! ## NOD structured decode (nod_to_gltf.py parse_nod, lines 215-382) -/

/-- Vertex type to stride table (nod_to_gltf.py VERTEX_STRIDES). -/
def VERTEX_STRIDES : Nat → Option Nat
  | 0 => some 0x20
  | 1 => some 0x24
  | 2 => some 0x30
  | 3 => some 0x20
  | _ => none

structure NodVertex where
  pos : F32 × F32 × F32
  normal : F32 × F32 × F32
  uv : F32 × F32
deriving DecidableEq

structure NodLod where
  strip_start : Nat
  strip_count : Nat
  list_start : Nat
  list_count : Nat
  vtx_count : Nat
deriving DecidableEq

structure NodMeshGroup where
  material_id : Nat
  lods : List NodLod
  vertex_count : Nat
  group_flags : Nat
  vtx_group : Nat
deriving DecidableEq

/-- Result of parse_nod.  The lod_starts and lod_count header fields are
read by the Python code but not returned, and the raw buffer copy is
dropped; everything else in the returned dict is here. -/
structure NodParsed where
  version : Nat
  shader_count : Nat
  bone_count : Nat
  vert_group_count : Nat
  mesh_group_count : Nat
  flags : Nat
  bbox_min : F32 × F32 × F32
  bbox_max : F32 × F32 × F32
  vtx_groups : List (Nat × Nat)
  index_count : Nat
  shaders : List (List Nat)
  all_vertices : List (List NodVertex)
  indices : List Nat
  mesh_groups : List NodMeshGroup
deriving DecidableEq

/-- The four 8-byte vertex-group slots at 0x24: type byte plus u32 count. -/
def nodVtxGroups (data : List Nat) : List (Nat × Nat) :=
  [(read_u8 data 0x24, read_u32 data 0x28),
   (read_u8 data 0x2C, read_u32 data 0x30),
   (read_u8 data 0x34, read_u32 data 0x38),
   (read_u8 data 0x3C, read_u32 data 0x40)]

def takeUntilZero : List Nat → List Nat
  | [] => []
  | b :: rest => if b = 0 then [] else b :: takeUntilZero rest

/-- One 0x20-byte shader-name slot: bytes up to the first null, with
non-ASCII bytes dropped (decode with errors ignored). -/
def shaderName (data : List Nat) (off : Nat) : List Nat :=
  (takeUntilZero ((data.drop off).take 0x20)).filter (fun b => b < 128)

def parseShaders (data : List Nat) : Nat → Nat → List (List Nat)
  | _, 0 => []
  | off, n + 1 => shaderName data off :: parseShaders data (off + 0x20) n

def readVertex (data : List Nat) (off : Nat) : NodVertex :=
  ⟨(read_f32 data off, read_f32 data (off + 4), read_f32 data (off + 8)),
   (read_f32 data (off + 12), read_f32 data (off + 16), read_f32 data (off + 20)),
   (read_f32 data (off + 24), read_f32 data (off + 28))⟩

/-- Vertex records of one group; stops early (keeping the records read so
far) when the next full record does not fit in the buffer. -/
def parseVerts (data : List Nat) (stride : Nat) : Nat → Nat → List NodVertex × Nat
  | 0, off => ([], off)
  | n + 1, off =>
    if data.length < off + stride then ([], off)
    else
      let r := parseVerts data stride n (off + stride)
      (readVertex data off :: r.1, r.2)

/-- All vertex groups in sequence, threading the running byte offset.
The Python loop aborts the whole decode at the first group whose type is
outside VERTEX_STRIDES; parse_nod below performs that check up front,
which yields the same result (None), so here the stride lookup may
default. -/
def parseGroups (data : List Nat) : List (Nat × Nat) → Nat → List (List NodVertex) × Nat
  | [], off => ([], off)
  | (t, cnt) :: rest, off =>
    let stride := (VERTEX_STRIDES t).getD 0
    let r1 := parseVerts data stride cnt off
    let r2 := parseGroups data rest r1.2
    (r1.1 :: r2.1, r2.2)

/-- The 16-bit index buffer; stops early at end of buffer. -/
def parseIndices (data : List Nat) : Nat → Nat → List Nat × Nat
  | 0, off => ([], off)
  | n + 1, off =>
    if data.length < off + 2 then ([], off)
    else
      let r := parseIndices data n (off + 2)
      (read_u16 data off :: r.1, r.2)

/-- One 6-byte LOD record at off, with the running index-range cursor. -/
def parseLod (data : List Nat) (off acc : Nat) : NodLod × Nat :=
  let sc := read_u16 data off
  let lc := read_u16 data (off + 2)
  let vc := read_u16 data (off + 4)
  (⟨acc, sc, acc + sc, lc, vc⟩, acc + sc + lc)

def parseLods4 (data : List Nat) (off acc : Nat) : List NodLod × Nat :=
  let l0 := parseLod data off acc
  let l1 := parseLod data (off + 6) l0.2
  let l2 := parseLod data (off + 12) l1.2
  let l3 := parseLod data (off + 18) l2.2
  ([l0.1, l1.1, l2.1, l3.1], l3.2)

/-- Mesh-group descriptors (0x38 bytes each); stops early at end of
buffer, keeping the descriptors read so far.  acc is the accumulated
index offset threaded across groups. -/
def parseMeshGroups (data : List Nat) : Nat → Nat → Nat → List NodMeshGroup
  | 0, _, _ => []
  | n + 1, off, acc =>
    if data.length < off + 0x38 then []
    else
      let mat := read_u32 data off
      let lr := parseLods4 data (off + 4) acc
      let vcount := read_u16 data (off + 28)
      let gflags := read_u8 data (off + 30)
      let vgrp := read_u8 data (off + 54)
      ⟨mat, lr.1, vcount, gflags, vgrp⟩ :: parseMeshGroups data n (off + 0x38) lr.2

/-- parse_nod (nod_to_gltf.py lines 215-382).  Fails only on a short
header, a wrong version, or an unknown vertex-group type; truncated
variable-length sections are kept partially.  The Python code indexes
vtx_groups[gi] for gi below vert_group_count and would raise past slot 4;
the take below therefore only models buffers with vert_group_count at
most 4, and every theorem about parse_nod carries that bound. -/
def parse_nod (data : List Nat) : Option NodParsed :=
  if data.length < 0x5C then none
  else if read_u32 data 0 ≠ 0xA then none
  else
    let shader_count := read_u8 data 4
    let bone_count := read_u8 data 5
    let vert_group_count := read_u8 data 6
    let mesh_group_count := read_u8 data 7
    let vtx_groups := nodVtxGroups data
    let groups := vtx_groups.take vert_group_count
    if groups.all (fun g => (VERTEX_STRIDES g.1).isSome) then
      let index_count := read_u32 data 0x44
      let off0 := 0x5C + shader_count * 0x20 + bone_count * 0x40
      let gv := parseGroups data groups off0
      let iv := parseIndices data index_count gv.2
      some ⟨read_u32 data 0, shader_count, bone_count, vert_group_count,
            mesh_group_count, read_u32 data 8,
            (read_f32 data 0xC, read_f32 data 0x10, read_f32 data 0x14),
            (read_f32 data 0x18, read_f32 data 0x1C, read_f32 data 0x20),
            vtx_groups, index_count, parseShaders data 0x5C shader_count,
            gv.1, iv.1, parseMeshGroups data mesh_group_count iv.2 0⟩
    else none

/-! ## Vertex sanitisation (extract_mesh flattening, lines 410-442) -/

def allFinite3 (t : F32 × F32 × F32) : Bool :=
  t.1.isFiniteB && t.2.1.isFiniteB && t.2.2.isFiniteB

def sanitizePos (t : F32 × F32 × F32) : ℚ × ℚ × ℚ :=
  if allFinite3 t then (t.1.q, t.2.1.q, t.2.2.q) else (0, 0, 0)

def normSqQ (t : ℚ × ℚ × ℚ) : ℚ := t.1 * t.1 + t.2.1 * t.2.1 + t.2.2 * t.2.2

/-- The normal triple after the finiteness step: non-finite components
are replaced by (0,1,0) before the length test. -/
def finiteOr010 (t : F32 × F32 × F32) : ℚ × ℚ × ℚ :=
  if allFinite3 t then (t.1.q, t.2.1.q, t.2.2.q) else (0, 1, 0)

/-- Normal sanitisation: the finiteness step, then the length test and
the rescale divide by sqrtA of the squared length (math.sqrt in the
source). -/
def sanitizeNormal (sqrtA : ℚ → ℚ) (t : F32 × F32 × F32) : ℚ × ℚ × ℚ :=
  let n := finiteOr010 t
  let nlen := sqrtA (normSqQ n)
  if nlen < 1 / 1000 then (0, 1, 0)
  else (n.1 / nlen, n.2.1 / nlen, n.2.2 / nlen)

def clampQ (lo hi x : ℚ) : ℚ := max lo (min hi x)

/-- UV sanitisation: non-finite pairs become (0,0); components are clamped
to [-10,10]; then the V coordinate is flipped (DirectX to glTF). -/
def sanitizeUV (t : F32 × F32) : ℚ × ℚ :=
  let u0 : ℚ × ℚ := if t.1.isFiniteB && t.2.isFiniteB then (t.1.q, t.2.q) else (0, 0)
  (clampQ (-10) 10 u0.1, 1 - clampQ (-10) 10 u0.2)

/-! ## Strip and list triangulation (extract_mesh, lines 458-527) -/

/-- The sliding-window strip loop after the first two indices have been
consumed: v1 v2 is the current window prefix, n the winding counter.
Every processed window advances n, whether accepted, rejected as
degenerate, or rejected by the bounds check. -/
def stripGo (total voff : Nat) : Nat → Nat → Nat → List Nat → List Nat
  | _, _, _, [] => []
  | v1, v2, n, v3 :: rest =>
    let a := v1 + voff
    let b := v2 + voff
    let c := v3 + voff
    let tri : List Nat :=
      if v1 = v2 ∨ v2 = v3 ∨ v1 = v3 then []
      else if total ≤ a ∨ total ≤ b ∨ total ≤ c then []
      else if n % 2 = 0 then [a, b, c] else [a, c, b]
    tri ++ stripGo total voff v2 v3 (n + 1) rest

def stripTriangles (total voff : Nat) : List Nat → List Nat
  | v1 :: v2 :: rest => stripGo total voff v1 v2 0 rest
  | _ => []

/-- The sequence of sliding 3-index windows of a strip, given its first
two indices: one window per remaining index. -/
def stripWindows : Nat → Nat → List Nat → List (Nat × Nat × Nat)
  | _, _, [] => []
  | v1, v2, x :: rest => (v1, v2, x) :: stripWindows v2 x rest

/-- What one strip window emits when processed with winding counter n:
nothing when two indices coincide or the bounds check fails, otherwise a
triangle whose orientation depends only on the parity of n. -/
def windowEmit (total voff n : Nat) (w : Nat × Nat × Nat) : List Nat :=
  let a := w.1 + voff
  let b := w.2.1 + voff
  let c := w.2.2 + voff
  if w.1 = w.2.1 ∨ w.2.1 = w.2.2 ∨ w.1 = w.2.2 then []
  else if total ≤ a ∨ total ≤ b ∨ total ≤ c then []
  else if n % 2 = 0 then [a, b, c] else [a, c, b]

/-- The triangle-list loop: k remaining triples, base the current index
position; a triple that runs past the end of the index buffer stops the
loop, an out-of-bounds triple is skipped without stopping. -/
def listGo (total voff : Nat) (indices : List Nat) : Nat → Nat → List Nat
  | _, 0 => []
  | base, k + 1 =>
    if indices.length ≤ base + 2 then []
    else
      let i0 := indices.getD base 0 + voff
      let i1 := indices.getD (base + 1) 0 + voff
      let i2 := indices.getD (base + 2) 0 + voff
      (if total ≤ i0 ∨ total ≤ i1 ∨ total ≤ i2 then [] else [i0, i1, i2]) ++
        listGo total voff indices (base + 3) k

def listTriangles (total voff : Nat) (indices : List Nat) (start cnt : Nat) : List Nat :=
  listGo total voff indices start (cnt / 3)

/-! ## extract_mesh assembly (lines 389-542) -/

structure Mesh where
  positions : List (ℚ × ℚ × ℚ)
  normals : List (ℚ × ℚ × ℚ)
  uvs : List (ℚ × ℚ)
  indices : List Nat
  group_triangles : List (Nat × List Nat)
  vertex_count : Nat
  triangle_count : Nat
  shaders : List (List Nat)
  mesh_groups : Nat
deriving DecidableEq

def flatVerts (nod : NodParsed) : List NodVertex := nod.all_vertices.flatten

/-- group_triangles is an insertion-ordered dict keyed by material id:
ensure the key exists, then append that groups triangles to it. -/
def gtEnsure (gts : List (Nat × List Nat)) (k : Nat) : List (Nat × List Nat) :=
  if gts.any (fun p => p.1 = k) then gts else gts ++ [(k, [])]

def gtAppend (gts : List (Nat × List Nat)) (k : Nat) (tris : List Nat) :
    List (Nat × List Nat) :=
  gts.map (fun p => if p.1 = k then (p.1, p.2 ++ tris) else p)

/-- Triangles of one mesh group: LOD 0 only, strip run then list run. -/
def groupTris (total voff : Nat) (indices : List Nat) (mg : NodMeshGroup) : List Nat :=
  let lod0 := mg.lods.headD ⟨0, 0, 0, 0, 0⟩
  (if 0 < lod0.strip_count then
      stripTriangles total voff ((indices.drop lod0.strip_start).take lod0.strip_count)
    else []) ++
  (if 0 < lod0.list_count then
      listTriangles total voff indices lod0.list_start lod0.list_count
    else [])

/-- The per-mesh-group loop of extract_mesh: accumulates the global
triangle list and the per-material buckets, advancing the vertex offset
by each groups declared vertex_count. -/
def extractLoop (total : Nat) (indices : List Nat) :
    List NodMeshGroup → Nat → List Nat × List (Nat × List Nat) →
      List Nat × List (Nat × List Nat)
  | [], _, st => st
  | mg :: rest, voff, st =>
    let tris := groupTris total voff indices mg
    extractLoop total indices rest (voff + mg.vertex_count)
      (st.1 ++ tris, gtAppend (gtEnsure st.2 mg.material_id) mg.material_id tris)

def extract_mesh (sqrtA : ℚ → ℚ) (nod : NodParsed) : Option Mesh :=
  if nod.all_vertices = [] ∨ nod.indices = [] ∨ nod.mesh_groups = [] then none
  else
    let fv := flatVerts nod
    let total := fv.length
    if total < 3 then none
    else
      let r := extractLoop total nod.indices nod.mesh_groups 0 ([], [])
      if r.1.length < 3 then none
      else
        some ⟨fv.map (fun v => sanitizePos v.pos),
              fv.map (fun v => sanitizeNormal sqrtA v.normal),
              fv.map (fun v => sanitizeUV v.uv),
              r.1, r.2, total, r.1.length / 3, nod.shaders, nod.mesh_groups.length⟩

/-- The structured decode path: parse_nod then extract_mesh. -/
def decode_pipeline (sqrtA : ℚ → ℚ) (data : List Nat) : Option Mesh :=
  (parse_nod data).bind (fun nod => extract_mesh sqrtA nod)

/-! ## Heuristic vertex scanner (build_model_stubs.py lines 129-262) -/

structure BBox where
  bmin : ℚ × ℚ × ℚ
  bmax : ℚ × ℚ × ℚ
  span : ℚ × ℚ × ℚ
deriving DecidableEq

/-- in_expanded_bbox (build_model_stubs.py lines 129-140): the box grown
per axis by max(0.25, 10 percent of span). -/
def in_expanded_bbox (x y z : ℚ) (b : BBox) : Bool :=
  let m1 := max (1 / 4) (b.span.1 * (1 / 10))
  let m2 := max (1 / 4) (b.span.2.1 * (1 / 10))
  let m3 := max (1 / 4) (b.span.2.2 * (1 / 10))
  !(x < b.bmin.1 - m1 || b.bmax.1 + m1 < x ||
    y < b.bmin.2.1 - m2 || b.bmax.2.1 + m2 < y ||
    z < b.bmin.2.2 - m3 || b.bmax.2.2 + m3 < z)

/-- candidate_count_hint (build_model_stubs.py lines 143-149). -/
def candidate_count_hint (data : List Nat) : Option Nat :=
  if data.length < 0x2C then none
  else
    let val := read_u32 data 0x28
    if 4 ≤ val ∧ val ≤ 250000 then some val else none

/-- Python round(x, 5): round half to even at 5 decimal places, in exact
rational arithmetic. -/
def roundQ5 (q : ℚ) : ℚ :=
  let x : ℚ := q * 100000
  let n : ℤ := Int.floor x
  let f : ℚ := x - (n : ℚ)
  let r : ℤ :=
    if f < 1 / 2 then n
    else if 1 / 2 < f then n + 1
    else if n % 2 = 0 then n else n + 1
  (r : ℚ) / 100000

/-- Number of records evaluated when scoring a candidate (offset, stride):
up to 256 or the available count, further capped by the count hint clamped
into [24, 256] when a (truthy) hint is present. -/
def evalCount (dataLen off stride : Nat) (count_hint : Option Nat) : Nat :=
  let available := (dataLen - off) / stride
  let e1 := min available 256
  match count_hint with
  | none => e1
  | some h => if h = 0 then e1 else min e1 (max 24 (min h 256))

/-- The record-classification loop of the scoring pass: counts of finite
(and in-range), nonzero, and in-box records among the first n records at
(off, stride).  With no bounding box every finite record counts as
in-box, matching the Python disjunction. -/
def countTriples (data : List Nat) (bbox : Option BBox) (off stride : Nat) :
    Nat → Nat × Nat × Nat
  | 0 => (0, 0, 0)
  | i + 1 =>
    let prev := countTriples data bbox off stride i
    let base := off + i * stride
    let xf := read_f32 data base
    let yf := read_f32 data (base + 4)
    let zf := read_f32 data (base + 8)
    if xf.isFiniteB && yf.isFiniteB && zf.isFiniteB then
      let x := xf.q
      let y := yf.q
      let z := zf.q
      if 1000000 < |x| ∨ 1000000 < |y| ∨ 1000000 < |z| then prev
      else
        (prev.1 + 1,
         (if 1 / 1000000 < |x| + |y| + |z| then prev.2.1 + 1 else prev.2.1),
         (if (match bbox with
              | none => true
              | some b => in_expanded_bbox x y z b) then prev.2.2 + 1 else prev.2.2))
    else prev

structure Cand where
  offset : Nat
  stride : Nat
  available : Nat
  eval_n : Nat
  finite_ratio : ℚ
  inbox_ratio : ℚ
  nonzero_ratio : ℚ
  score : ℚ
deriving DecidableEq

/-- Score one candidate (offset, stride); none when fewer than 12 records
are available (the Python continue).  Ratios and the blended score are
stored rounded to 5 decimals, as the Python dict does. -/
def scoreCand (data : List Nat) (bbox : Option BBox) (count_hint : Option Nat)
    (off stride : Nat) : Option Cand :=
  let available := (data.length - off) / stride
  if available < 12 then none
  else
    let eval_n := evalCount data.length off stride count_hint
    if eval_n = 0 then none
    else
      let c := countTriples data bbox off stride eval_n
      let finite := c.1
      let nonzero := c.2.1
      let inbox := c.2.2
      let finite_ratio : ℚ := (finite : ℚ) / (eval_n : ℚ)
      let inbox_ratio : ℚ := if finite = 0 then 0 else (inbox : ℚ) / (finite : ℚ)
      let nonzero_ratio : ℚ := if finite = 0 then 0 else (nonzero : ℚ) / (finite : ℚ)
      let score : ℚ :=
        match bbox with
        | none => finite_ratio * (3 / 4) + nonzero_ratio * (1 / 4)
        | some _ => finite_ratio * (45 / 100) + inbox_ratio * (45 / 100) +
            nonzero_ratio * (1 / 10)
      some ⟨off, stride, available, eval_n, roundQ5 finite_ratio, roundQ5 inbox_ratio,
            roundQ5 nonzero_ratio, roundQ5 score⟩

/-- Keep-first-on-ties best-candidate update (the Python strict
greater-than comparison on rounded scores). -/
def candBetter (best : Option Cand) (c : Cand) : Option Cand :=
  match best with
  | none => some c
  | some b => if b.score < c.score then some c else some b

/-- range(a, b, s) for a positive step. -/
def rangeStep (a b s : Nat) : List Nat :=
  (List.range ((b - a + s - 1) / s)).map (fun k => a + s * k)

/-- Order-preserving first-occurrence deduplication (the Python seen-set
filter). -/
def uniqFirst (seen : List Nat) : List Nat → List Nat
  | [] => []
  | x :: xs => if x ∈ seen then uniqFirst seen xs else x :: uniqFirst (x :: seen) xs

/-- Candidate offsets: the fixed list of commonly observed offsets plus a
0x10-stepped sweep of the low-offset region, deduplicated keeping order. -/
def vcOffsets (dataLen : Nat) : List Nat :=
  uniqFirst []
    ([0x80, 0x90, 0xA0, 0xB0, 0xC0, 0xE0, 0x100, 0x120] ++
      rangeStep 0x40 (min (dataLen - 12) 0x400) 0x10)

def vcStrides : List Nat := [12, 16, 20, 24, 28, 32, 36, 40, 48, 56, 64]

/-- One candidate visit of the scan loop: score it (skipping when fewer
than 12 records are available) and update the running best. -/
def vcStep (data : List Nat) (bbox : Option BBox) (count_hint : Option Nat)
    (best : Option Cand) (off stride : Nat) : Option Cand :=
  match scoreCand data bbox count_hint off stride with
  | none => best
  | some c => candBetter best c

def vcBestOff (data : List Nat) (bbox : Option BBox) (count_hint : Option Nat)
    (best : Option Cand) (off : Nat) : Option Cand :=
  vcStrides.foldl (fun b stride => vcStep data bbox count_hint b off stride) best

/-- The nested best-candidate search over offsets and strides. -/
def vcBest (data : List Nat) (bbox : Option BBox) (count_hint : Option Nat) :
    Option Cand :=
  (vcOffsets data.length).foldl (fun b off => vcBestOff data bbox count_hint b off) none

/-- The read-out loop after acceptance: walks all available records in
stream order until target positions are collected, silently dropping
non-finite or out-of-range records and retaining each survivors original
stream index. -/
def vcCollect (data : List Nat) (off stride target : Nat) :
    Nat → Nat → Nat → List (ℚ × ℚ × ℚ) × List Nat
  | _, _, 0 => ([], [])
  | i, cnt, fuel + 1 =>
    if target ≤ cnt then ([], [])
    else
      let base := off + i * stride
      let xf := read_f32 data base
      let yf := read_f32 data (base + 4)
      let zf := read_f32 data (base + 8)
      if xf.isFiniteB && yf.isFiniteB && zf.isFiniteB then
        let x := xf.q
        let y := yf.q
        let z := zf.q
        if 1000000 < |x| ∨ 1000000 < |y| ∨ 1000000 < |z| then
          vcCollect data off stride target (i + 1) cnt fuel
        else
          let r := vcCollect data off stride target (i + 1) (cnt + 1) fuel
          ((x, y, z) :: r.1, i :: r.2)
      else vcCollect data off stride target (i + 1) cnt fuel

inductive VStatus where
  | too_small : VStatus
  | no_candidate : VStatus
  | low_confidence : VStatus
  | insufficient_vertices : VStatus
  | ok : VStatus
deriving DecidableEq

/-- The return value of parse_vertex_cloud: the optional position list,
the surviving original stream indices, and the meta dict (status, best
candidate, accepted count). -/
structure VResult where
  positions : Option (List (ℚ × ℚ × ℚ))
  orig_indices : List Nat
  status : VStatus
  best : Option Cand
  accepted_vertices : Nat
deriving DecidableEq

/-- parse_vertex_cloud (build_model_stubs.py lines 152-262). -/
def parse_vertex_cloud (data : List Nat) (bbox : Option BBox) (max_points : Nat)
    (count_hint : Option Nat) : VResult :=
  if data.length < 256 then ⟨none, [], .too_small, none, 0⟩
  else
    match vcBest data bbox count_hint with
    | none => ⟨none, [], .no_candidate, none, 0⟩
    | some best =>
      let threshold : ℚ := if bbox.isSome then 4 / 5 else 22 / 25
      if best.score < threshold then ⟨none, [], .low_confidence, some best, 0⟩
      else
        let target0 :=
          match count_hint with
          | some h => if h ≠ 0 ∧ 4 ≤ h ∧ h ≤ best.available then h else best.available
          | none => best.available
        let target := min target0 max_points
        let r := vcCollect data best.offset best.stride target 0 0 best.available
        if r.1.length < 8 then ⟨none, [], .insufficient_vertices, some best, r.1.length⟩
        else ⟨some r.1, r.2, .ok, some best, r.1.length⟩

/-! ## Triangle remapping (build_model_stubs.py lines 407-422) -/

/-- Index of the last occurrence of x in l starting at base position i
(the Python dict comprehension keeps the last assignment per key). -/
def lastIndexOfAux (x : Nat) : List Nat → Nat → Option Nat
  | [], _ => none
  | y :: ys, i =>
    match lastIndexOfAux x ys (i + 1) with
    | some j => some j
    | none => if y = x then some i else none

def lastIndexOf (l : List Nat) (x : Nat) : Option Nat := lastIndexOfAux x l 0

/-- The per-triangle remap decision: all three original indices must
survive, and the remapped triple must stay non-degenerate. -/
def remapStep (orig : List Nat) (t : Nat × Nat × Nat) : Option (Nat × Nat × Nat) :=
  match lastIndexOf orig t.1, lastIndexOf orig t.2.1, lastIndexOf orig t.2.2 with
  | some a, some b, some c => if a = b ∨ b = c ∨ a = c then none else some (a, b, c)
  | _, _, _ => none

def remapGo (orig : List Nat) : List Nat → List Nat
  | a :: b :: c :: rest =>
    (match remapStep orig (a, b, c) with
     | some t => [t.1, t.2.1, t.2.2]
     | none => []) ++ remapGo orig rest
  | _ => []

/-- remap_triangles_to_compact: rewrite heuristic triangles through the
original-index to compact-position mapping, dropping triangles that
reference a dropped vertex or become degenerate; a trailing partial
triple stops the loop. -/
def remap_triangles_to_compact (indices orig_indices : List Nat) : List Nat :=
  if indices = [] ∨ orig_indices = [] then [] else remapGo orig_indices indices

/-- Aligned triple reading of a flat triangle-index list. -/
def triplesOf : List Nat → List (Nat × Nat × Nat)
  | a :: b :: c :: rest => (a, b, c) :: triplesOf rest
  | _ => []

/-! ## Concrete inputs used by counterexamples and witnesses -/

def zeroF3 : F32 × F32 × F32 := (.fin 0, .fin 0, .fin 0)

def zeroVertex : NodVertex := ⟨zeroF3, zeroF3, (.fin 0, .fin 0)⟩

def zeroLod : NodLod := ⟨0, 0, 0, 0, 0⟩

/-- A parsed input with 5 vertices and one mesh group whose LOD-0 strip
range covers the whole raw index sequence 0 1 2 1 3 2 2 3 4. -/
def exC3nod : NodParsed :=
  ⟨0xA, 0, 0, 1, 1, 0, zeroF3, zeroF3, [(0, 5)], 9, [],
   [List.replicate 5 zeroVertex], [0, 1, 2, 1, 3, 2, 2, 3, 4],
   [⟨0, [⟨0, 9, 9, 0, 5⟩, zeroLod, zeroLod, zeroLod], 5, 0, 0⟩]⟩

/-- A parsed input with 3 vertices and one mesh group whose LOD-0 list
range covers the raw index triple 0 0 1, which has two equal indices. -/
def exC2nod : NodParsed :=
  ⟨0xA, 0, 0, 1, 1, 0, zeroF3, zeroF3, [(0, 3)], 3, [],
   [List.replicate 3 zeroVertex], [0, 0, 1],
   [⟨0, [⟨0, 0, 0, 3, 3⟩, zeroLod, zeroLod, zeroLod], 3, 0, 0⟩]⟩

/-- A 250-byte NOD buffer: valid header (version 0xA, 1 vertex group of
type 0 with 3 records, 3 indices, 2 declared mesh groups), full vertex
and index sections, but only one of the two declared 0x38-byte mesh-group
descriptors present -- the descriptor table extends 56 bytes past the end
of the buffer. -/
def exC1 : List Nat :=
  [0x0A, 0, 0, 0, 0, 0, 1, 2] ++ [0, 0, 0, 0] ++
  List.replicate 24 0 ++
  ([0, 0, 0, 0, 3, 0, 0, 0] ++ List.replicate 24 0) ++
  [3, 0, 0, 0] ++
  List.replicate 16 0 ++
  List.replicate 4 0 ++
  List.replicate 96 0 ++
  [0, 0, 1, 0, 2, 0] ++
  ([0, 0, 0, 0] ++ [0, 0, 3, 0, 3, 0] ++ List.replicate 18 0 ++ [3, 0] ++
    List.replicate 3 0 ++ List.replicate 20 0 ++ [0, 0, 0])

def zeros256 : List Nat := List.replicate 256 0

def ffs256 : List Nat := List.replicate 256 255

def zeros1328 : List Nat := List.replicate 1328 0

/-! ## Claim C3 -/

set_option maxRecDepth 8000

/-- Claim C3 counterexample: on the strip 0 1 2 1 3 2 2 3 4 (one group,
offset 0, 5 vertices, no list indices) the triangulator emits 4
triangles, not the 3 the claim states: the sliding window passes through
three degenerate windows, and the accepted windows sit at positions 0, 2,
3 and 6 of the strip. -/
theorem C3_counterexample :
    (extract_mesh (fun _ => 0) exC3nod).map (fun m => m.triangle_count) ≠ some 3 := by
  with_unfolding_all decide

/-- Claim C3 (amended): triangulating that single mesh group produces
exactly 4 triangles, 0 1 2, 2 1 3, 1 2 3 and 2 3 4; only the third is
emitted winding-swapped (window parity 1), because the degenerate windows
between accepted ones also flip the winding flag, so triangles 1 and 2
share parity 0. -/
theorem C3_theorem :
    stripTriangles 5 0 [0, 1, 2, 1, 3, 2, 2, 3, 4] =
      [0, 1, 2, 2, 1, 3, 1, 2, 3, 2, 3, 4] ∧
    (extract_mesh (fun _ => 0) exC3nod).map (fun m => (m.indices, m.triangle_count)) =
      some ([0, 1, 2, 2, 1, 3, 1, 2, 3, 2, 3, 4], 4) := by
  constructor
  · decide
  · with_unfolding_all decide

/-! ## Claim C9 -/

/-- Claim C9: the structured decode is deterministic: on identical byte
buffers, parse_nod and the parse-then-extract pipeline produce identical
results (they are pure functions of the input bytes). -/
theorem C9_theorem : ∀ (sq : ℚ → ℚ) (d1 d2 : List Nat), d1 = d2 →
    parse_nod d1 = parse_nod d2 ∧ decode_pipeline sq d1 = decode_pipeline sq d2 := by
  intro sq d1 d2 h
  subst h
  exact ⟨rfl, rfl⟩

theorem C9_witness :
    parse_nod exC1 = parse_nod exC1 ∧
    decode_pipeline (fun _ => 0) exC1 = decode_pipeline (fun _ => 0) exC1 :=
  C9_theorem (fun _ => 0) exC1 exC1 rfl

/-! ## Claim C4 -/

/-- Claim C4 counterexample: with 100 records available and a count hint
of 10 (a value candidate_count_hint can produce, its range starting at 4),
the scanner evaluates 24 records, not min(available, 256, hint) = 10: the
hint is clamped from below to 24. -/
theorem C4_counterexample :
    evalCount 1328 0x80 12 (some 10) = 24 ∧
    min (min ((1328 - 0x80) / 12) 256) (min 10 256) = 10 ∧
    (scoreCand zeros1328 none (some 10) 0x80 12).map (fun c => c.eval_n) = some 24 ∧
    (24 : Nat) ≠ 10 := by
  refine ⟨by decide, by decide, ?_, by decide⟩
  with_unfolding_all decide

/-- Claim C4 (amended): for each scored candidate the scanner evaluates
min(available, 256) records, further capped by the count hint clamped
into [24, 256]: the hint caps evaluation exactly as claimed when it is at
least 24, but a smaller hint is raised to a floor of 24. -/
theorem C4_theorem : ∀ (dataLen off stride h : Nat), h ≠ 0 →
    (24 ≤ h → evalCount dataLen off stride (some h) =
      min (min ((dataLen - off) / stride) 256) h) ∧
    (h < 24 → evalCount dataLen off stride (some h) =
      min (min ((dataLen - off) / stride) 256) 24) ∧
    (∀ (data : List Nat) (bbox : Option BBox) (c : Cand), data.length = dataLen →
      scoreCand data bbox (some h) off stride = some c →
      c.eval_n = evalCount dataLen off stride (some h)) := by
  intro dataLen off stride h hne
  refine ⟨?_, ?_, ?_⟩
  · intro h24
    simp only [evalCount, if_neg hne]
    omega
  · intro h24
    simp only [evalCount, if_neg hne]
    omega
  · intro data bbox c hlen hsc
    subst hlen
    cases bbox <;>
    · unfold scoreCand at hsc
      dsimp only at hsc
      split at hsc
      · cases hsc
      · split at hsc
        · cases hsc
        · cases hsc
          rfl

theorem C4_witness :
    evalCount 1328 0x80 12 (some 30) = min (min ((1328 - 0x80) / 12) 256) 30 :=
  (C4_theorem 1328 0x80 12 30 (by decide)).1 (by decide)

/-! ## Claim C1 -/

/-- Claim C1 counterexample: exC1 passes the header check (92 bytes plus
version 0xA) and declares two mesh-group descriptors, needing 306 bytes
in total, but is only 250 bytes long; the decode nevertheless succeeds,
returning the one descriptor that fits, and the pipeline produces a mesh
with the 3 vertices and 1 triangle that happened to be present. -/
theorem C1_counterexample :
    exC1.length = 250 ∧ 0x5C ≤ exC1.length ∧ read_u32 exC1 0 = 0xA ∧
    exC1.length < 0x5C + 3 * 0x20 + 3 * 2 + 2 * 0x38 ∧
    (parse_nod exC1).map (fun p => (p.mesh_group_count, p.mesh_groups.length)) =
      some (2, 1) ∧
    (decode_pipeline (fun _ => 0) exC1).map
        (fun m => (m.indices, m.vertex_count, m.triangle_count)) =
      some ([0, 1, 2], 3, 1) := by
  refine ⟨by decide, by decide, by decide, by decide, ?_, ?_⟩
  · with_unfolding_all decide
  · with_unfolding_all decide

/-! ## Claim C2 -/

/-- Claim C2 counterexample: a list run containing the raw triple 0 0 1
(all indices in bounds) is emitted unchanged: the output contains a
triangle triple with two equal indices, so the no-two-equal half of the
invariant fails for list runs. -/
theorem C2_counterexample :
    (extract_mesh (fun _ => 0) exC2nod).map (fun m => m.indices) = some [0, 0, 1] ∧
    (0, 0, 1) ∈ triplesOf [0, 0, 1] := by
  refine ⟨?_, by decide⟩
  with_unfolding_all decide

/-! ## Shared lemmas about the triangulation loops -/

theorem stripGo_mem_lt (total voff : Nat) :
    ∀ (l : List Nat) (v1 v2 n x : Nat), x ∈ stripGo total voff v1 v2 n l → x < total := by
  intro l
  induction l with
  | nil => intro v1 v2 n x hx; simp [stripGo] at hx
  | cons v3 rest ih =>
    intro v1 v2 n x hx
    simp only [stripGo, List.mem_append] at hx
    rcases hx with hx | hx
    · split at hx
      · simp at hx
      · split at hx
        · simp at hx
        · rename_i hb
          push_neg at hb
          split at hx <;>
            (simp only [List.mem_cons, List.not_mem_nil, or_false] at hx; omega)
    · exact ih v2 v3 (n + 1) x hx

theorem stripGo_triples (total voff : Nat) :
    ∀ (l : List Nat) (v1 v2 n : Nat) (t : Nat × Nat × Nat),
      t ∈ triplesOf (stripGo total voff v1 v2 n l) →
      t.1 < total ∧ t.2.1 < total ∧ t.2.2 < total ∧
        t.1 ≠ t.2.1 ∧ t.2.1 ≠ t.2.2 ∧ t.1 ≠ t.2.2 := by
  intro l
  induction l with
  | nil => intro v1 v2 n t ht; simp [stripGo, triplesOf] at ht
  | cons v3 rest ih =>
    intro v1 v2 n t ht
    simp only [stripGo] at ht
    split at ht
    · rw [List.nil_append] at ht
      exact ih v2 v3 (n + 1) t ht
    · split at ht
      · rw [List.nil_append] at ht
        exact ih v2 v3 (n + 1) t ht
      · rename_i hdeg hb
        push_neg at hdeg
        push_neg at hb
        split at ht
        · simp only [List.cons_append, List.nil_append, triplesOf, List.mem_cons] at ht
          rcases ht with ht | ht
          · subst ht
            exact ⟨show v1 + voff < total by omega, show v2 + voff < total by omega,
                   show v3 + voff < total by omega, show v1 + voff ≠ v2 + voff by omega,
                   show v2 + voff ≠ v3 + voff by omega, show v1 + voff ≠ v3 + voff by omega⟩
          · exact ih v2 v3 (n + 1) t ht
        · simp only [List.cons_append, List.nil_append, triplesOf, List.mem_cons] at ht
          rcases ht with ht | ht
          · subst ht
            exact ⟨show v1 + voff < total by omega, show v3 + voff < total by omega,
                   show v2 + voff < total by omega, show v1 + voff ≠ v3 + voff by omega,
                   show v3 + voff ≠ v2 + voff by omega, show v1 + voff ≠ v2 + voff by omega⟩
          · exact ih v2 v3 (n + 1) t ht

theorem listGo_mem_lt (total voff : Nat) (idxs : List Nat) :
    ∀ (k base x : Nat), x ∈ listGo total voff idxs base k → x < total := by
  intro k
  induction k with
  | zero => intro base x hx; simp [listGo] at hx
  | succ k ih =>
    intro base x hx
    simp only [listGo] at hx
    split at hx
    · simp at hx
    · simp only [List.mem_append] at hx
      rcases hx with hx | hx
      · split at hx
        · simp at hx
        · rename_i hb
          push_neg at hb
          simp only [List.mem_cons, List.not_mem_nil, or_false] at hx
          omega
      · exact ih (base + 3) x hx

theorem stripTriangles_mem_lt (total voff : Nat) :
    ∀ (l : List Nat) (x : Nat), x ∈ stripTriangles total voff l → x < total := by
  intro l x hx
  match l with
  | [] => simp [stripTriangles] at hx
  | [a] => simp [stripTriangles] at hx
  | v1 :: v2 :: rest => exact stripGo_mem_lt total voff rest v1 v2 0 x hx

theorem groupTris_mem_lt (total voff : Nat) (idxs : List Nat) (mg : NodMeshGroup)
    (x : Nat) (hx : x ∈ groupTris total voff idxs mg) : x < total := by
  unfold groupTris at hx
  simp only [List.mem_append] at hx
  rcases hx with hx | hx
  · split at hx
    · exact stripTriangles_mem_lt total voff _ x hx
    · simp at hx
  · split at hx
    · exact listGo_mem_lt total voff idxs _ _ x hx
    · simp at hx

theorem extractLoop_mem (total : Nat) (idxs : List Nat) :
    ∀ (mgs : List NodMeshGroup) (voff : Nat) (st : List Nat × List (Nat × List Nat))
      (x : Nat), x ∈ (extractLoop total idxs mgs voff st).1 → x ∈ st.1 ∨ x < total := by
  intro mgs
  induction mgs with
  | nil => intro voff st x hx; exact Or.inl hx
  | cons mg rest ih =>
    intro voff st x hx
    rcases ih (voff + mg.vertex_count) _ x hx with hx2 | hx2
    · simp only [List.mem_append] at hx2
      rcases hx2 with hx3 | hx3
      · exact Or.inl hx3
      · exact Or.inr (groupTris_mem_lt total voff idxs mg x hx3)
    · exact Or.inr hx2

theorem extract_mesh_fields (sq : ℚ → ℚ) (nod : NodParsed) (m : Mesh)
    (h : extract_mesh sq nod = some m) :
    m.vertex_count = (flatVerts nod).length ∧
    m.indices =
      (extractLoop (flatVerts nod).length nod.indices nod.mesh_groups 0 ([], [])).1 ∧
    m.positions = (flatVerts nod).map (fun v => sanitizePos v.pos) ∧
    m.normals = (flatVerts nod).map (fun v => sanitizeNormal sq v.normal) ∧
    m.uvs = (flatVerts nod).map (fun v => sanitizeUV v.uv) := by
  unfold extract_mesh at h
  split at h
  · cases h
  · dsimp only at h
    split at h
    · cases h
    · split at h
      · cases h
      · cases h
        exact ⟨rfl, rfl, rfl, rfl, rfl⟩

/-- Claim C2 (amended): every index emitted by extract_mesh, from strip
and list runs alike, is below the flattened vertex count, and triples
coming from a strip run additionally never have two equal indices; but a
list-run triple is only bounds-checked, so a degenerate list triple is
emitted rather than dropped. -/
theorem C2_theorem :
    (∀ (sq : ℚ → ℚ) (nod : NodParsed) (m : Mesh), extract_mesh sq nod = some m →
      ∀ x ∈ m.indices, x < m.vertex_count) ∧
    (∀ (total voff : Nat) (l : List Nat) (t : Nat × Nat × Nat),
      t ∈ triplesOf (stripTriangles total voff l) →
      t.1 < total ∧ t.2.1 < total ∧ t.2.2 < total ∧
        t.1 ≠ t.2.1 ∧ t.2.1 ≠ t.2.2 ∧ t.1 ≠ t.2.2) := by
  constructor
  · intro sq nod m h x hx
    obtain ⟨hvc, hidx, -⟩ := extract_mesh_fields sq nod m h
    rw [hidx] at hx
    rw [hvc]
    rcases extractLoop_mem (flatVerts nod).length nod.indices nod.mesh_groups 0
        ([], []) x hx with h0 | h0
    · simp at h0
    · exact h0
  · intro total voff l t ht
    match l with
    | [] => simp [stripTriangles, triplesOf] at ht
    | [a] => simp [stripTriangles, triplesOf] at ht
    | v1 :: v2 :: rest => exact stripGo_triples total voff rest v1 v2 0 t ht

theorem C2_witness : (0 : Nat) < 5 ∧ (1 : Nat) < 5 ∧ (2 : Nat) < 5 := by
  have h := C2_theorem.2 5 0 [0, 1, 2] (0, 1, 2) (by decide)
  exact ⟨h.1, h.2.1, h.2.2.1⟩

/-! ## Claim C6 -/

/-- Claim C6: a window with two equal indices emits nothing, and the
winding-alternation flag is positional: starting the sliding-window loop
with counter n, the k-th window of the strip is processed with counter
n + k whether or not earlier windows were accepted, so every processed
window (accepted, degenerate, or out of bounds) advances the flag. -/
theorem C6_theorem :
    (∀ (total voff n : Nat) (w : Nat × Nat × Nat),
      (w.1 = w.2.1 ∨ w.2.1 = w.2.2 ∨ w.1 = w.2.2) → windowEmit total voff n w = []) ∧
    (∀ (total voff : Nat) (l : List Nat) (v1 v2 n : Nat),
      stripGo total voff v1 v2 n l =
        (List.enumFrom n (stripWindows v1 v2 l)).flatMap
          (fun p => windowEmit total voff p.1 p.2)) ∧
    (∀ (total voff v1 v2 : Nat) (rest : List Nat),
      stripTriangles total voff (v1 :: v2 :: rest) =
        (stripWindows v1 v2 rest).enum.flatMap
          (fun p => windowEmit total voff p.1 p.2)) := by
  have h2 : ∀ (total voff : Nat) (l : List Nat) (v1 v2 n : Nat),
      stripGo total voff v1 v2 n l =
        (List.enumFrom n (stripWindows v1 v2 l)).flatMap
          (fun p => windowEmit total voff p.1 p.2) := by
    intro total voff l
    induction l with
    | nil => intro v1 v2 n; rfl
    | cons v3 rest ih =>
      intro v1 v2 n
      simp only [stripGo, stripWindows, List.enumFrom, List.flatMap_cons]
      rw [ih v2 v3 (n + 1)]
      rfl
  refine ⟨?_, h2, ?_⟩
  · intro total voff n w h
    unfold windowEmit
    dsimp only
    rw [if_pos h]
  · intro total voff v1 v2 rest
    exact h2 total voff rest v1 v2 0

theorem C6_witness : windowEmit 5 0 7 (1, 2, 1) = [] :=
  C6_theorem.1 5 0 7 (1, 2, 1) (by decide)

/-! ## Shared lemmas about the section parsers -/

theorem parseVerts_len_le (data : List Nat) (stride : Nat) :
    ∀ (n off : Nat), (parseVerts data stride n off).1.length ≤ n := by
  intro n
  induction n with
  | zero => intro off; simp [parseVerts]
  | succ n ih =>
    intro off
    simp only [parseVerts]
    split
    · simp
    · dsimp only
      have := ih (off + stride)
      simp only [List.length_cons]
      omega

theorem parseIndices_len_le (data : List Nat) :
    ∀ (n off : Nat), (parseIndices data n off).1.length ≤ n := by
  intro n
  induction n with
  | zero => intro off; simp [parseIndices]
  | succ n ih =>
    intro off
    simp only [parseIndices]
    split
    · simp
    · dsimp only
      have := ih (off + 2)
      simp only [List.length_cons]
      omega

theorem parseMeshGroups_len_le (data : List Nat) :
    ∀ (n off acc : Nat), (parseMeshGroups data n off acc).length ≤ n := by
  intro n
  induction n with
  | zero => intro off acc; simp [parseMeshGroups]
  | succ n ih =>
    intro off acc
    simp only [parseMeshGroups]
    split
    · simp
    · have := ih (off + 0x38) (parseLods4 data (off + 4) acc).2
      simp only [List.length_cons]
      omega

theorem parseGroups_forall2 (data : List Nat) :
    ∀ (gs : List (Nat × Nat)) (off : Nat),
      List.Forall₂ (fun (verts : List NodVertex) (g : Nat × Nat) => verts.length ≤ g.2)
        (parseGroups data gs off).1 gs := by
  intro gs
  induction gs with
  | nil => intro off; simp [parseGroups]
  | cons g rest ih =>
    intro off
    obtain ⟨t, cnt⟩ := g
    simp only [parseGroups]
    exact List.Forall₂.cons (parseVerts_len_le data _ cnt off) (ih _)

/-- Claim C1 (amended): a buffer that passes the header check decodes
successfully whenever its vertex-group types are known (and the group
count is at most the 4 slots the Python code indexes without crashing):
truncation of the vertex records, the index buffer, or the mesh-group
table never fails the decode; each section simply keeps at most the
declared number of records, and the partial parse is returned. -/
theorem C1_theorem : ∀ (data : List Nat),
    0x5C ≤ data.length → read_u32 data 0 = 0xA → read_u8 data 6 ≤ 4 →
    ((nodVtxGroups data).take (read_u8 data 6)).all
        (fun g => (VERTEX_STRIDES g.1).isSome) = true →
    ∃ p, parse_nod data = some p ∧
      p.indices.length ≤ p.index_count ∧
      p.mesh_groups.length ≤ p.mesh_group_count ∧
      List.Forall₂ (fun (verts : List NodVertex) (g : Nat × Nat) => verts.length ≤ g.2)
        p.all_vertices ((nodVtxGroups data).take (read_u8 data 6)) := by
  intro data hlen hver hvgc hall
  unfold parse_nod
  rw [if_neg (show ¬data.length < 0x5C by omega),
      if_neg (show ¬read_u32 data 0 ≠ 0xA from not_not_intro hver)]
  dsimp only
  rw [if_pos hall]
  refine ⟨_, rfl, ?_, ?_, ?_⟩
  · exact parseIndices_len_le data _ _
  · exact parseMeshGroups_len_le data _ _ _
  · exact parseGroups_forall2 data _ _

theorem C1_witness :
    ∃ p, parse_nod exC1 = some p ∧
      p.indices.length ≤ p.index_count ∧
      p.mesh_groups.length ≤ p.mesh_group_count ∧
      List.Forall₂ (fun (verts : List NodVertex) (g : Nat × Nat) => verts.length ≤ g.2)
        p.all_vertices ((nodVtxGroups exC1).take (read_u8 exC1 6)) :=
  C1_theorem exC1 (by decide) (by decide) (by decide) (by decide)


/-! ## Claim C8 -/

theorem lastIndexOfAux_lt (x : Nat) :
    ∀ (l : List Nat) (i j : Nat), lastIndexOfAux x l i = some j → j < i + l.length := by
  intro l
  induction l with
  | nil => intro i j h; cases h
  | cons y ys ih =>
    intro i j h
    simp only [lastIndexOfAux] at h
    split at h
    · rename_i j0 heq
      cases h
      have := ih (i + 1) j heq
      simp only [List.length_cons]
      omega
    · split at h
      · cases h
        simp only [List.length_cons]
        omega
      · cases h

theorem lastIndexOf_lt (l : List Nat) (x j : Nat) (h : lastIndexOf l x = some j) :
    j < l.length := by
  have := lastIndexOfAux_lt x l 0 j h
  omega

theorem lastIndexOfAux_not_mem (x : Nat) :
    ∀ (l : List Nat) (i : Nat), x ∉ l → lastIndexOfAux x l i = none := by
  intro l
  induction l with
  | nil => intro i h; rfl
  | cons y ys ih =>
    intro i h
    simp only [List.mem_cons, not_or] at h
    simp only [lastIndexOfAux, ih (i + 1) h.2]
    rw [if_neg (fun hyx => h.1 hyx.symm)]

theorem lastIndexOf_not_mem (l : List Nat) (x : Nat) (h : x ∉ l) :
    lastIndexOf l x = none :=
  lastIndexOfAux_not_mem x l 0 h

theorem remapStep_some (orig : List Nat) (t u : Nat × Nat × Nat)
    (h : remapStep orig t = some u) :
    u.1 < orig.length ∧ u.2.1 < orig.length ∧ u.2.2 < orig.length ∧
      u.1 ≠ u.2.1 ∧ u.2.1 ≠ u.2.2 ∧ u.1 ≠ u.2.2 := by
  unfold remapStep at h
  split at h
  · rename_i a b c h1 h2 h3
    split at h
    · cases h
    · rename_i hne
      push_neg at hne
      cases h
      exact ⟨show a < orig.length from lastIndexOf_lt orig t.1 a h1,
             show b < orig.length from lastIndexOf_lt orig t.2.1 b h2,
             show c < orig.length from lastIndexOf_lt orig t.2.2 c h3,
             show a ≠ b from hne.1, show b ≠ c from hne.2.1, show a ≠ c from hne.2.2⟩
  · cases h

theorem remapStep_dropped (orig : List Nat) (t : Nat × Nat × Nat)
    (h : t.1 ∉ orig ∨ t.2.1 ∉ orig ∨ t.2.2 ∉ orig) : remapStep orig t = none := by
  unfold remapStep
  rcases h with h | h | h
  · rw [lastIndexOf_not_mem orig _ h]
  · rw [lastIndexOf_not_mem orig _ h]
    cases lastIndexOf orig t.1 <;> cases lastIndexOf orig t.2.2 <;> rfl
  · rw [lastIndexOf_not_mem orig _ h]
    cases lastIndexOf orig t.1 <;> cases lastIndexOf orig t.2.1 <;> rfl

theorem remapGo_triples (orig : List Nat) :
    ∀ (l : List Nat), triplesOf (remapGo orig l) = (triplesOf l).filterMap (remapStep orig)
  | [] => rfl
  | [a] => rfl
  | [a, b] => rfl
  | a :: b :: c :: rest => by
    simp only [remapGo, triplesOf]
    cases h : remapStep orig (a, b, c) with
    | none =>
      rw [List.filterMap_cons_none h]
      exact remapGo_triples orig rest
    | some u =>
      rw [List.filterMap_cons_some h]
      exact congrArg (fun l => u :: l) (remapGo_triples orig rest)

theorem remapGo_mem_lt (orig : List Nat) :
    ∀ (l : List Nat) (x : Nat), x ∈ remapGo orig l → x < orig.length
  | a :: b :: c :: rest => by
    intro x hx
    simp only [remapGo, List.mem_append] at hx
    rcases hx with hx | hx
    · rcases h : remapStep orig (a, b, c) with - | u
      · rw [h] at hx
        simp at hx
      · rw [h] at hx
        have hu := remapStep_some orig (a, b, c) u h
        simp only [List.mem_cons, List.not_mem_nil, or_false] at hx
        rcases hx with hx | hx | hx <;> subst hx
        · exact hu.1
        · exact hu.2.1
        · exact hu.2.2.1
    · exact remapGo_mem_lt orig rest x hx
  | [] => by intro x hx; cases hx
  | [a] => by intro x hx; cases hx
  | [a, b] => by intro x hx; cases hx

theorem filterMap_remapStep_nil : ∀ (l : List (Nat × Nat × Nat)),
    l.filterMap (remapStep []) = []
  | [] => rfl
  | t :: rest => by
    rw [List.filterMap_cons_none (show remapStep [] t = none from rfl)]
    exact filterMap_remapStep_nil rest

/-- Claim C8: remapped triangles are exactly the input triples whose
three original indices all survive and stay distinct after remapping,
rewritten through the last-assignment original-to-compact mapping; every
output index is below the surviving-vertex count, a triangle referencing
a dropped index contributes nothing, and every surviving distinct triple
appears in the output. -/
theorem C8_theorem : ∀ (idxs orig : List Nat),
    (∀ x ∈ remap_triangles_to_compact idxs orig, x < orig.length) ∧
    triplesOf (remap_triangles_to_compact idxs orig) =
      (triplesOf idxs).filterMap (remapStep orig) ∧
    (∀ t : Nat × Nat × Nat, t.1 ∉ orig ∨ t.2.1 ∉ orig ∨ t.2.2 ∉ orig →
      remapStep orig t = none) ∧
    (∀ (t u : Nat × Nat × Nat), remapStep orig t = some u →
      u.1 < orig.length ∧ u.2.1 < orig.length ∧ u.2.2 < orig.length ∧
        u.1 ≠ u.2.1 ∧ u.2.1 ≠ u.2.2 ∧ u.1 ≠ u.2.2) ∧
    (∀ (t u : Nat × Nat × Nat), t ∈ triplesOf idxs → remapStep orig t = some u →
      u ∈ triplesOf (remap_triangles_to_compact idxs orig)) := by
  intro idxs orig
  have htri : triplesOf (remap_triangles_to_compact idxs orig) =
      (triplesOf idxs).filterMap (remapStep orig) := by
    unfold remap_triangles_to_compact
    split
    · rename_i hco
      rcases hco with hco | hco
    
      · subst hco
        rfl
      · subst hco
        rw [filterMap_remapStep_nil]
        rfl
    · exact remapGo_triples orig idxs
  refine ⟨?_, htri, fun t ht => remapStep_dropped orig t ht,
    fun t u hu => remapStep_some orig t u hu, ?_⟩
  · intro x hx
    unfold remap_triangles_to_compact at hx
    split at hx
    · cases hx
    · exact remapGo_mem_lt orig idxs x hx
  · intro t u ht hu
    rw [htri]
    exact List.mem_filterMap.mpr ⟨t, ht, hu⟩

theorem C8_witness :
    ((0 : Nat), (1 : Nat), (2 : Nat)) ∈
      triplesOf (remap_triangles_to_compact [0, 2, 4, 0, 1, 2] [0, 2, 4]) :=
  (C8_theorem [0, 2, 4, 0, 1, 2] [0, 2, 4]).2.2.2.2 (0, 2, 4) (0, 1, 2)
    (by decide) (by decide)


/-! ## Claim C10 -/

/-- Claim C10: the flattened vertex attributes of every mesh produced by
the structured path are the sanitised images of the decoded records, and
sanitisation yields only exact rational (hence finite) values: a
non-finite position becomes (0,0,0), a non-finite normal becomes (0,1,0)
(the real square root of 1 being 1), a normal whose length is below 0.001
becomes (0,1,0), any other normal is rescaled to unit (squared) length
whenever sqrtA is exact on its squared length, and each UV component is
clamped to [-10,10] before the V flip, leaving u in [-10,10] and v in
[-9,11]. -/
theorem C10_theorem :
    (∀ (sq : ℚ → ℚ) (nod : NodParsed) (m : Mesh), extract_mesh sq nod = some m →
      m.positions = (flatVerts nod).map (fun v => sanitizePos v.pos) ∧
      m.normals = (flatVerts nod).map (fun v => sanitizeNormal sq v.normal) ∧
      m.uvs = (flatVerts nod).map (fun v => sanitizeUV v.uv)) ∧
    (∀ t : F32 × F32 × F32, allFinite3 t = false → sanitizePos t = (0, 0, 0)) ∧
    (∀ t : F32 × F32 × F32, allFinite3 t = true →
      sanitizePos t = (t.1.q, t.2.1.q, t.2.2.q)) ∧
    (∀ (sq : ℚ → ℚ) (t : F32 × F32 × F32), sq 1 = 1 → allFinite3 t = false →
      sanitizeNormal sq t = (0, 1, 0)) ∧
    (∀ (sq : ℚ → ℚ) (t : F32 × F32 × F32), sq (normSqQ (finiteOr010 t)) < 1 / 1000 →
      sanitizeNormal sq t = (0, 1, 0)) ∧
    (∀ (sq : ℚ → ℚ) (t : F32 × F32 × F32),
      sq (normSqQ (finiteOr010 t)) * sq (normSqQ (finiteOr010 t)) =
        normSqQ (finiteOr010 t) →
      ¬ sq (normSqQ (finiteOr010 t)) < 1 / 1000 →
      normSqQ (sanitizeNormal sq t) = 1) ∧
    (∀ t : F32 × F32, -10 ≤ (sanitizeUV t).1 ∧ (sanitizeUV t).1 ≤ 10 ∧
      -9 ≤ (sanitizeUV t).2 ∧ (sanitizeUV t).2 ≤ 11) := by
  refine ⟨?_, ?_, ?_, ?_, ?_, ?_, ?_⟩
  · intro sq nod m h
    obtain ⟨-, -, h1, h2, h3⟩ := extract_mesh_fields sq nod m h
    exact ⟨h1, h2, h3⟩
  · intro t h
    unfold sanitizePos
    rw [if_neg (by simp [h])]
  · intro t h
    unfold sanitizePos
    rw [if_pos h]
  · intro sq t hsq h
    unfold sanitizeNormal
    dsimp only
    rw [show finiteOr010 t = (0, 1, 0) by unfold finiteOr010; rw [if_neg (by simp [h])]]
    have hn : normSqQ ((0 : ℚ), (1 : ℚ), (0 : ℚ)) = 1 := by unfold normSqQ; norm_num
    rw [hn, hsq]
    rw [if_neg (by norm_num)]
    norm_num
  · intro sq t h
    unfold sanitizeNormal
    dsimp only
    rw [if_pos h]
  · intro sq t hsq hlt
    have hkne : sq (normSqQ (finiteOr010 t)) ≠ 0 := by
      intro h0
      rw [h0] at hlt
      norm_num at hlt
    have hsne : normSqQ (finiteOr010 t) ≠ 0 := by
      rw [← hsq]
      exact mul_ne_zero hkne hkne
    unfold sanitizeNormal
    dsimp only
    rw [if_neg hlt]
    unfold normSqQ
    dsimp only
    rw [div_mul_div_comm, div_mul_div_comm, div_mul_div_comm, div_add_div_same,
        div_add_div_same]
    unfold normSqQ at hsq hsne
    rw [hsq]
    exact div_self hsne
  · intro t
    unfold sanitizeUV clampQ
    dsimp only
    constructor
    · exact le_max_left _ _
    · constructor
      · exact max_le (by norm_num) (min_le_left _ _)
      · constructor
        · have : max (-10 : ℚ) (min 10 (if t.1.isFiniteB && t.2.isFiniteB then (t.1.q, t.2.q) else ((0 : ℚ), (0 : ℚ))).2) ≤ 10 :=
            max_le (by norm_num) (min_le_left _ _)
          linarith
        · have : (-10 : ℚ) ≤ max (-10 : ℚ) (min 10 (if t.1.isFiniteB && t.2.isFiniteB then (t.1.q, t.2.q) else ((0 : ℚ), (0 : ℚ))).2) :=
            le_max_left _ _
          linarith

def sqrtEx : ℚ → ℚ := fun q => if q = 4 then 2 else 1

theorem C10_witness :
    normSqQ (sanitizeNormal sqrtEx (F32.fin 0, F32.fin 2, F32.fin 0)) = 1 :=
  C10_theorem.2.2.2.2.2.1 sqrtEx (F32.fin 0, F32.fin 2, F32.fin 0)
    (by with_unfolding_all decide) (by with_unfolding_all decide)


/-! ## Claims C5 and C7 -/


theorem bitsToF32_zero : bitsToF32 0 = .fin 0 := by
  with_unfolding_all decide

theorem read_f32_zero (data : List Nat) (hz : ∀ i, byteAt data i = 0) (off : Nat) :
    read_f32 data off = .fin 0 := by
  unfold read_f32 read_u32
  rw [hz off, hz (off + 1), hz (off + 2), hz (off + 3)]
  norm_num
  exact bitsToF32_zero

theorem countTriples_zero (data : List Nat) (hz : ∀ i, byteAt data i = 0)
    (off stride : Nat) : ∀ n, countTriples data none off stride n = (n, 0, n) := by
  intro n
  induction n with
  | zero => rfl
  | succ n ih =>
    unfold countTriples
    simp only [read_f32_zero data hz, ih]
    norm_num [F32.isFiniteB, F32.q]

theorem roundQ5_threeQuarters : roundQ5 (3 / 4) = 3 / 4 := by
  with_unfolding_all decide

theorem scoreCand_zero (data : List Nat) (hz : ∀ i, byteAt data i = 0)
    (hint : Option Nat) (off stride : Nat) (c : Cand)
    (h : scoreCand data none hint off stride = some c) : c.score = 3 / 4 := by
  unfold scoreCand at h
  dsimp only at h
  split at h
  · cases h
  · split at h
    · cases h
    · rename_i hav hev
      rw [countTriples_zero data hz off stride] at h
      cases h
      show roundQ5 _ = 3 / 4
      dsimp only
      rw [if_neg hev, div_self (show ((evalCount data.length off stride hint : ℚ)) ≠ 0
        by exact_mod_cast hev)]
      norm_num
      exact roundQ5_threeQuarters

theorem roundQ5_zero : roundQ5 0 = 0 := by
  with_unfolding_all decide

theorem countTriples_nan (data : List Nat) (off stride : Nat)
    (hnan : ∀ b, b + 4 ≤ data.length → read_f32 data b = .nan) :
    ∀ n, (∀ i, i < n → off + i * stride + 12 ≤ data.length) →
      countTriples data none off stride n = (0, 0, 0) := by
  intro n
  induction n with
  | zero => intro _; rfl
  | succ n ih =>
    intro hb
    have hn := hb n (by omega)
    unfold countTriples
    have h1 := hnan (off + n * stride) (by omega)
    have h2 := hnan (off + n * stride + 4) (by omega)
    have h3 := hnan (off + n * stride + 8) (by omega)
    simp only [h1, h2, h3, ih (fun i hi => hb i (by omega))]
    norm_num [F32.isFiniteB]

theorem scoreCand_nan (data : List Nat)
    (hnan : ∀ b, b + 4 ≤ data.length → read_f32 data b = .nan)
    (hint : Option Nat) (off stride : Nat) (hst : 12 ≤ stride) (c : Cand)
    (h : scoreCand data none hint off stride = some c) : c.score = 0 := by
  unfold scoreCand at h
  dsimp only at h
  split at h
  · cases h
  · split at h
    · cases h
    · rename_i hav hev
      push_neg at hav
      have hle : evalCount data.length off stride hint ≤ (data.length - off) / stride := by
        unfold evalCount
        cases hint with
        | none => exact min_le_left _ _
        | some hh =>
          dsimp only
          split
          · exact min_le_left _ _
          · exact le_trans (min_le_left _ _) (min_le_left _ _)
      have hoff : 12 * stride ≤ data.length - off :=
        (Nat.le_div_iff_mul_le (by omega)).mp hav
      have hbound : ∀ i, i < evalCount data.length off stride hint →
          off + i * stride + 12 ≤ data.length := by
        intro i hi
        have h2 : i + 1 ≤ (data.length - off) / stride := by omega
        have h3 : (i + 1) * stride ≤ data.length - off :=
          (Nat.le_div_iff_mul_le (by omega)).mp h2
        have hmul : (i + 1) * stride = i * stride + stride := by ring
        omega
      rw [countTriples_nan data off stride hnan _ hbound] at h
      cases h
      show roundQ5 _ = 0
      dsimp only
      norm_num
      exact roundQ5_zero

theorem vcStep_pres (P : Cand → Prop) (data : List Nat) (bbox : Option BBox)
    (hint : Option Nat) (off stride : Nat) (b : Option Cand)
    (hsc : ∀ c, scoreCand data bbox hint off stride = some c → P c)
    (hb : ∀ c, b = some c → P c) :
    ∀ c, vcStep data bbox hint b off stride = some c → P c := by
  intro c h
  unfold vcStep at h
  split at h
  · exact hb c h
  · rename_i c0 heq
    cases b with
    | none =>
      unfold candBetter at h
      cases h
      exact hsc _ heq
    | some bb =>
      have h2 : (if bb.score < c0.score then some c0 else some bb) = some c := h
      by_cases hlt : bb.score < c0.score
      · rw [if_pos hlt] at h2
        cases h2
        exact hsc _ heq
      · rw [if_neg hlt] at h2
        cases h2
        exact hb _ rfl

theorem foldStrides_pres (P : Cand → Prop) (data : List Nat) (bbox : Option BBox)
    (hint : Option Nat) (off : Nat) :
    ∀ (ss : List Nat) (b : Option Cand),
      (∀ stride ∈ ss, ∀ c, scoreCand data bbox hint off stride = some c → P c) →
      (∀ c, b = some c → P c) →
      ∀ c, ss.foldl (fun b stride => vcStep data bbox hint b off stride) b = some c →
        P c := by
  intro ss
  induction ss with
  | nil => intro b hall hb c h; exact hb c h
  | cons s rest ih =>
    intro b hall hb c h
    simp only [List.foldl_cons] at h
    exact ih _ (fun st hst => hall st (List.mem_cons_of_mem s hst))
      (vcStep_pres P data bbox hint off s b (hall s (List.mem_cons_self s rest)) hb) c h

theorem foldOffsets_pres (P : Cand → Prop) (data : List Nat) (bbox : Option BBox)
    (hint : Option Nat)
    (hall : ∀ off stride, stride ∈ vcStrides →
      ∀ c, scoreCand data bbox hint off stride = some c → P c) :
    ∀ (os : List Nat) (b : Option Cand), (∀ c, b = some c → P c) →
      ∀ c, os.foldl (fun b off => vcBestOff data bbox hint b off) b = some c → P c := by
  intro os
  induction os with
  | nil => intro b hb c h; exact hb c h
  | cons o rest ih =>
    intro b hb c h
    simp only [List.foldl_cons] at h
    refine ih _ ?_ c h
    intro c2 h2
    exact foldStrides_pres P data bbox hint o vcStrides b (fun st _ => hall o st ‹_›)
      hb c2 h2

theorem vcBest_pres (P : Cand → Prop) (data : List Nat) (bbox : Option BBox)
    (hint : Option Nat)
    (hall : ∀ off stride, stride ∈ vcStrides →
      ∀ c, scoreCand data bbox hint off stride = some c → P c) :
    ∀ c, vcBest data bbox hint = some c → P c := by
  intro c h
  exact foldOffsets_pres P data bbox hint hall (vcOffsets data.length) none
    (fun c2 h2 => by cases h2) c h

theorem parse_vertex_cloud_reject (data : List Nat) (maxp : Nat) (hint : Option Nat)
    (hall : ∀ c, vcBest data none hint = some c → c.score < 22 / 25) :
    (parse_vertex_cloud data none maxp hint).positions = none ∧
    ((parse_vertex_cloud data none maxp hint).status = .too_small ∨
     (parse_vertex_cloud data none maxp hint).status = .no_candidate ∨
     (parse_vertex_cloud data none maxp hint).status = .low_confidence) := by
  unfold parse_vertex_cloud
  split
  · exact ⟨rfl, Or.inl rfl⟩
  · split
    · exact ⟨rfl, Or.inr (Or.inl rfl)⟩
    · rename_i best heq
      simp only [Option.isSome_none, Bool.false_eq_true, if_false]
      rw [if_pos (hall best heq)]
      exact ⟨rfl, Or.inr (Or.inr rfl)⟩

theorem vcStrides_ge_12 : ∀ s ∈ vcStrides, 12 ≤ s := by decide

/-- Claim C5 (amended): on an all-zero buffer (every byte 0) or an
all-NaN buffer (every 4-byte read that fits decodes to nan), with no
bounding-box hint, the scanner returns no positions and never accepts a
candidate; the status is too_small, no_candidate, or low_confidence --
but on buffers of 256 bytes or more the rejection is low_confidence
(every zero candidate scores exactly 0.75 and every nan candidate 0,
both below the no-hint threshold 0.88), not the no_candidate the claim
predicts. -/
theorem C5_theorem :
    (∀ (data : List Nat) (maxp : Nat) (hint : Option Nat), (∀ i, byteAt data i = 0) →
      (parse_vertex_cloud data none maxp hint).positions = none ∧
      ((parse_vertex_cloud data none maxp hint).status = .too_small ∨
       (parse_vertex_cloud data none maxp hint).status = .no_candidate ∨
       (parse_vertex_cloud data none maxp hint).status = .low_confidence)) ∧
    (∀ (data : List Nat) (maxp : Nat) (hint : Option Nat),
      (∀ b, b + 4 ≤ data.length → read_f32 data b = .nan) →
      (parse_vertex_cloud data none maxp hint).positions = none ∧
      ((parse_vertex_cloud data none maxp hint).status = .too_small ∨
       (parse_vertex_cloud data none maxp hint).status = .no_candidate ∨
       (parse_vertex_cloud data none maxp hint).status = .low_confidence)) := by
  constructor
  · intro data maxp hint hz
    apply parse_vertex_cloud_reject
    intro c hc
    have hs := vcBest_pres (fun c => c.score = 3 / 4) data none hint
      (fun off stride _ c h => scoreCand_zero data hz hint off stride c h) c hc
    rw [hs]
    norm_num
  · intro data maxp hint hnan
    apply parse_vertex_cloud_reject
    intro c hc
    have hs := vcBest_pres (fun c => c.score = 0) data none hint
      (fun off stride hst c h =>
        scoreCand_nan data hnan hint off stride (vcStrides_ge_12 stride hst) c h) c hc
    rw [hs]
    norm_num

theorem byteAt_replicate : ∀ (n c i : Nat),
    byteAt (List.replicate n c) i = if i < n then c else 0 := by
  intro n
  induction n with
  | zero => intro c i; simp [byteAt]
  | succ n ih =>
    intro c i
    cases i with
    | zero => simp [byteAt, List.replicate]
    | succ j =>
      have hj := ih c j
      simp only [byteAt, List.replicate, List.getD_cons_succ] at hj ⊢
      rw [hj]
      by_cases h : j < n
      · rw [if_pos h, if_pos (by omega)]
      · rw [if_neg h, if_neg (by omega)]

theorem zeros256_bytes : ∀ i, byteAt zeros256 i = 0 := by
  intro i
  unfold zeros256
  rw [byteAt_replicate]
  split <;> rfl

theorem ffs256_nan : ∀ b, b + 4 ≤ ffs256.length → read_f32 ffs256 b = .nan := by
  intro b hb
  have hlen : ffs256.length = 256 := by simp [ffs256]
  rw [hlen] at hb
  unfold read_f32 read_u32
  unfold ffs256
  rw [byteAt_replicate, byteAt_replicate, byteAt_replicate, byteAt_replicate]
  rw [if_pos (by omega), if_pos (by omega), if_pos (by omega), if_pos (by omega)]
  norm_num
  decide

theorem C5_witness :
    ((parse_vertex_cloud zeros256 none 1500 none).positions = none ∧
      ((parse_vertex_cloud zeros256 none 1500 none).status = .too_small ∨
       (parse_vertex_cloud zeros256 none 1500 none).status = .no_candidate ∨
       (parse_vertex_cloud zeros256 none 1500 none).status = .low_confidence)) ∧
    ((parse_vertex_cloud ffs256 none 1500 none).positions = none ∧
      ((parse_vertex_cloud ffs256 none 1500 none).status = .too_small ∨
       (parse_vertex_cloud ffs256 none 1500 none).status = .no_candidate ∨
       (parse_vertex_cloud ffs256 none 1500 none).status = .low_confidence)) :=
  ⟨C5_theorem.1 zeros256 1500 none zeros256_bytes,
   C5_theorem.2 ffs256 1500 none ffs256_nan⟩

/-- Claim C7: the scanner proceeds past candidate selection (status ok or
insufficient_vertices, the two outcomes of the read-out phase) only when
the best score is at least 0.80 with a bounding-box hint and 0.88
without; a best candidate below the threshold yields low_confidence with
no positions, and when the scan of a big-enough buffer scores no
candidate at all the status is no_candidate. -/
theorem C7_theorem : ∀ (data : List Nat) (bbox : Option BBox) (maxp : Nat)
    (hint : Option Nat),
    (((parse_vertex_cloud data bbox maxp hint).status = .ok ∨
      (parse_vertex_cloud data bbox maxp hint).status = .insufficient_vertices) →
      ∃ c, (parse_vertex_cloud data bbox maxp hint).best = some c ∧
        (if bbox.isSome then (4 / 5 : ℚ) else 22 / 25) ≤ c.score) ∧
    (∀ c, (parse_vertex_cloud data bbox maxp hint).best = some c →
      c.score < (if bbox.isSome then (4 / 5 : ℚ) else 22 / 25) →
      (parse_vertex_cloud data bbox maxp hint).status = .low_confidence ∧
      (parse_vertex_cloud data bbox maxp hint).positions = none) ∧
    (256 ≤ data.length → (parse_vertex_cloud data bbox maxp hint).best = none →
      (parse_vertex_cloud data bbox maxp hint).status = .no_candidate) := by
  intro data bbox maxp hint
  cases bbox <;>
  · simp only [Option.isSome_none, Option.isSome_some, if_true, if_false,
      Bool.false_eq_true, ite_false, ite_true]
    unfold parse_vertex_cloud
    split
    · rename_i hlen
      refine ⟨fun h => ?_, fun c hc => ?_, fun h256 => absurd h256 (by omega)⟩
      · rcases h with h | h <;> simp at h
      · simp at hc
    · rename_i hlen
      split
      · refine ⟨fun h => ?_, fun c hc => ?_, fun _ _ => rfl⟩
        · rcases h with h | h <;> simp at h
        · simp at hc
      · rename_i best heq
        simp only [Option.isSome_none, Option.isSome_some, Bool.false_eq_true,
          ite_false, ite_true]
        split
        · refine ⟨fun h => ?_, fun c hc hsc => ?_, fun _ hb => ?_⟩
          · rcases h with h | h <;> simp at h
          · cases hc
            exact ⟨rfl, rfl⟩
          · simp at hb
        · rename_i hge
          split
          · refine ⟨fun h => ⟨best, rfl, not_lt.mp hge⟩, fun c hc hsc => ?_,
              fun _ hb => ?_⟩
            · cases hc
              exact absurd hsc hge
            · simp at hb
          · refine ⟨fun h => ⟨best, rfl, not_lt.mp hge⟩, fun c hc hsc => ?_,
              fun _ hb => ?_⟩
            · cases hc
              exact absurd hsc hge
            · simp at hb

/-- Claim C5 counterexample: the all-zero 256-byte buffer is rejected
with status low_confidence, not no_candidate or too_small: a candidate
is always scored (offset 0x40, stride 12) and its score 0.75 fails the
0.88 threshold. -/
theorem C5_counterexample :
    (parse_vertex_cloud zeros256 none 1500 none).status = .low_confidence ∧
    ¬ ((parse_vertex_cloud zeros256 none 1500 none).status = .no_candidate ∨
       (parse_vertex_cloud zeros256 none 1500 none).status = .too_small) := by
  with_unfolding_all decide

theorem C7_witness :
    (parse_vertex_cloud zeros256 none 1500 none).status = .low_confidence ∧
    (parse_vertex_cloud zeros256 none 1500 none).positions = none :=
  (C7_theorem zeros256 none 1500 none).2.1 ⟨64, 12, 16, 16, 1, 1, 0, 3 / 4⟩
    (by with_unfolding_all decide) (by with_unfolding_all decide)

end GhostPort
